import Mathlib

/-!
Shallow embedding of the distribution prioritization core of the package
manager under study, translated from
`crates/distribution-types/src/prioritized_distribution.rs`.

Opaque payload types are modelled by simple Lean types that expose exactly
the structure the code uses: upload timestamps are `Int` (Rust `i64`, only
compared), `TagPriority` and `IncompatibleTag` are `Nat` (opaque totally
ordered values, only compared with strict order), `VersionSpecifiers` is an
opaque `String` (never inspected by the preorder), and `Dist` and `Hashes`
are opaque `String` handles (never inspected by the bucket).
-/

namespace Uv

/-- Upload timestamp, Rust `i64`; only its order is used. -/
abbrev Timestamp := Int

/-- Opaque handle for a distribution artifact; the bucket never inspects it. -/
abbrev Dist := String

/-- Opaque content-digest record. -/
abbrev Hashes := String

/-- Totally ordered wheel tag preference; higher is better. Opaque comparable. -/
abbrev TagPriority := Nat

/-- Totally ordered closeness rank of an incompatible tag; higher is a nearer miss. -/
abbrev IncompatibleTag := Nat

/-- Opaque version-specifier set; the informativeness preorder never inspects it. -/
abbrev VersionSpecifiers := String

/-- `Yanked` from pypi-types: a yank marker, optionally carrying a textual reason. -/
inductive Yanked where
  | noReason
  | reason (why : String)
deriving DecidableEq, Repr

/-- `IncompatibleWheel` from prioritized_distribution.rs. -/
inductive IncompatibleWheel where
  | excludeNewer (timestamp : Option Timestamp)
  | tag (t : IncompatibleTag)
  | requiresPython (specifiers : VersionSpecifiers)
  | yanked (y : Yanked)
  | noBinary
deriving DecidableEq, Repr

/-- `IncompatibleSource` from prioritized_distribution.rs. -/
inductive IncompatibleSource where
  | excludeNewer (timestamp : Option Timestamp)
  | requiresPython (specifiers : VersionSpecifiers)
  | yanked (y : Yanked)
  | noBuild
deriving DecidableEq, Repr

/-- `WheelCompatibility` from prioritized_distribution.rs. -/
inductive WheelCompatibility where
  | incompatible (w : IncompatibleWheel)
  | compatible (priority : TagPriority)
deriving DecidableEq, Repr

/-- `SourceDistCompatibility` from prioritized_distribution.rs. -/
inductive SourceDistCompatibility where
  | incompatible (s : IncompatibleSource)
  | compatible
deriving DecidableEq, Repr

/-- Rust's derived `Ord` on `Option<i64>`, strict form: `None` is below every `Some`. -/
def optionIntLt : Option Timestamp → Option Timestamp → Bool
  | none, none => false
  | none, some _ => true
  | some _, none => false
  | some a, some b => a < b

/-- `IncompatibleSource::is_more_compatible`. `self` is the incoming reason,
`other` the reason already held. -/
def IncompatibleSource.is_more_compatible : IncompatibleSource → IncompatibleSource → Bool
  | .excludeNewer timestampSelf, other =>
    match other with
    | .excludeNewer timestampOther => optionIntLt timestampOther timestampSelf
    | .noBuild | .requiresPython _ | .yanked _ => true
  | .requiresPython _, other =>
    match other with
    | .excludeNewer _ => false
    | .requiresPython _ => false
    | .noBuild | .yanked _ => true
  | .yanked _, other =>
    match other with
    | .excludeNewer _ | .requiresPython _ => false
    | .yanked yankedOther =>
      match yankedOther with
      | .reason _ => true
      | .noReason => false
    | .noBuild => true
  | .noBuild, _ => false

/-- `IncompatibleWheel::is_more_compatible`. `self` is the incoming reason,
`other` the reason already held. -/
def IncompatibleWheel.is_more_compatible : IncompatibleWheel → IncompatibleWheel → Bool
  | .excludeNewer timestampSelf, other =>
    match other with
    | .excludeNewer timestampOther =>
      match timestampSelf, timestampOther with
      | none, _ => true
      | _, none => false
      | some tSelf, some tOther => tOther < tSelf
    | .noBinary | .requiresPython _ | .tag _ | .yanked _ => true
  | .tag tagSelf, other =>
    match other with
    | .excludeNewer _ => false
    | .tag tagOther => tagSelf < tagOther
    | .noBinary | .requiresPython _ | .yanked _ => true
  | .requiresPython _, other =>
    match other with
    | .excludeNewer _ | .tag _ => false
    | .requiresPython _ => false
    | .noBinary | .yanked _ => true
  | .yanked _, other =>
    match other with
    | .excludeNewer _ | .tag _ | .requiresPython _ => false
    | .yanked yankedOther =>
      match yankedOther with
      | .reason _ => true
      | .noReason => false
    | .noBinary => true
  | .noBinary, _ => false

/-- `PrioritizedDistInner`: the per-(package, version) accumulator. -/
structure PrioritizedDist where
  compatible_source : Option Dist
  compatible_wheel : Option (Dist × TagPriority)
  incompatible_wheel : Option (Dist × IncompatibleWheel)
  incompatible_source : Option (Dist × IncompatibleSource)
  hashes : List Hashes
deriving DecidableEq, Repr

/-- Rust `Default`: every slot `None`, no hashes. -/
def PrioritizedDist.default : PrioritizedDist :=
  { compatible_source := none
    compatible_wheel := none
    incompatible_wheel := none
    incompatible_source := none
    hashes := [] }

/-- `CompatibleDist`: which artifact to use for resolution and installation. -/
inductive CompatibleDist where
  | sourceDist (sdist : Dist)
  | compatibleWheel (wheel : Dist) (priority : TagPriority)
  | incompatibleWheel (source_dist : Dist) (wheel : Dist)
deriving DecidableEq, Repr

/-- `PrioritizedDist::from_built`. -/
def PrioritizedDist.from_built (dist : Dist) (hash : Option Hashes)
    (compatibility : WheelCompatibility) : PrioritizedDist :=
  match compatibility with
  | .compatible priority =>
    { compatible_source := none
      compatible_wheel := some (dist, priority)
      incompatible_wheel := none
      incompatible_source := none
      hashes := match hash with | some h => [h] | none => [] }
  | .incompatible incompatibility =>
    { compatible_source := none
      compatible_wheel := none
      incompatible_wheel := some (dist, incompatibility)
      incompatible_source := none
      hashes := match hash with | some h => [h] | none => [] }

/-- `PrioritizedDist::from_source`. -/
def PrioritizedDist.from_source (dist : Dist) (hash : Option Hashes)
    (compatibility : SourceDistCompatibility) : PrioritizedDist :=
  match compatibility with
  | .compatible =>
    { compatible_source := some dist
      incompatible_source := none
      compatible_wheel := none
      incompatible_wheel := none
      hashes := match hash with | some h => [h] | none => [] }
  | .incompatible incompatibility =>
    { compatible_source := none
      incompatible_source := some (dist, incompatibility)
      compatible_wheel := none
      incompatible_wheel := none
      hashes := match hash with | some h => [h] | none => [] }

/-- `PrioritizedDist::insert_built`. The Rust method mutates `self`; here the
updated bucket is returned. -/
def PrioritizedDist.insert_built (self : PrioritizedDist) (dist : Dist)
    (hash : Option Hashes) (compatibility : WheelCompatibility) : PrioritizedDist :=
  let updated :=
    match compatibility with
    | .compatible priority =>
      match self.compatible_wheel with
      | some (_, existing_priority) =>
        if existing_priority < priority then
          { self with compatible_wheel := some (dist, priority) }
        else
          self
      | none => { self with compatible_wheel := some (dist, priority) }
    | .incompatible incompatibility =>
      match self.incompatible_wheel with
      | some (_, existing_incompatibility) =>
        if incompatibility.is_more_compatible existing_incompatibility then
          { self with incompatible_wheel := some (dist, incompatibility) }
        else
          self
      | none => { self with incompatible_wheel := some (dist, incompatibility) }
  match hash with
  | some h => { updated with hashes := updated.hashes ++ [h] }
  | none => updated

/-- `PrioritizedDist::insert_source`. -/
def PrioritizedDist.insert_source (self : PrioritizedDist) (dist : Dist)
    (hash : Option Hashes) (compatibility : SourceDistCompatibility) : PrioritizedDist :=
  let updated :=
    match compatibility with
    | .compatible =>
      match self.compatible_source with
      | some _ => self
      | none => { self with compatible_source := some dist }
    | .incompatible incompatibility =>
      match self.incompatible_source with
      | some (_, existing_incompatibility) =>
        if incompatibility.is_more_compatible existing_incompatibility then
          { self with incompatible_source := some (dist, incompatibility) }
        else
          self
      | none => { self with incompatible_source := some (dist, incompatibility) }
  match hash with
  | some h => { updated with hashes := updated.hashes ++ [h] }
  | none => updated

/-- `PrioritizedDist::get`: the three-way selection projection. -/
def PrioritizedDist.get (self : PrioritizedDist) : Option CompatibleDist :=
  match self.compatible_wheel, self.compatible_source, self.incompatible_wheel with
  | some (wheel, tag_priority), _, _ => some (.compatibleWheel wheel tag_priority)
  | _, some source_dist, some (wheel, _) => some (.incompatibleWheel source_dist wheel)
  | _, some source_dist, _ => some (.sourceDist source_dist)
  | _, _, _ => none

/-- `PrioritizedDist::is_empty`. -/
def PrioritizedDist.is_empty (self : PrioritizedDist) : Bool :=
  self.compatible_source.isNone && self.incompatible_source.isNone
    && self.compatible_wheel.isNone && self.incompatible_wheel.isNone

/-- `CompatibleDist::for_resolution`. -/
def CompatibleDist.for_resolution : CompatibleDist → Dist
  | .sourceDist sdist => sdist
  | .compatibleWheel wheel _ => wheel
  | .incompatibleWheel _ wheel => wheel

/-- `CompatibleDist::for_installation`. -/
def CompatibleDist.for_installation : CompatibleDist → Dist
  | .sourceDist sdist => sdist
  | .compatibleWheel wheel _ => wheel
  | .incompatibleWheel source_dist _ => source_dist

/-- One insertion: either `insert_built` or `insert_source` with its arguments. -/
inductive InsertOp where
  | built (dist : Dist) (hash : Option Hashes) (compatibility : WheelCompatibility)
  | source (dist : Dist) (hash : Option Hashes) (compatibility : SourceDistCompatibility)
deriving DecidableEq, Repr

/-- Apply one insertion to a bucket. -/
def applyOp (b : PrioritizedDist) : InsertOp → PrioritizedDist
  | .built dist hash compatibility => b.insert_built dist hash compatibility
  | .source dist hash compatibility => b.insert_source dist hash compatibility

/-- Apply a sequence of insertions, left to right. -/
def applyOps (b : PrioritizedDist) (ops : List InsertOp) : PrioritizedDist :=
  ops.foldl applyOp b

/-- The tag priority of an op, when it is a compatible built insertion. -/
def compatPriority : InsertOp → Option TagPriority
  | .built _ _ (.compatible p) => some p
  | _ => none

/-- Priorities of the compatible built insertions of a sequence, in order. -/
def compatPriorities (ops : List InsertOp) : List TagPriority :=
  ops.filterMap compatPriority

/-- Whether an op is a compatible source insertion. -/
def isCompatSource : InsertOp → Bool
  | .source _ _ .compatible => true
  | _ => false

/-- Whether an op is an incompatible built insertion. -/
def isIncompatBuilt : InsertOp → Bool
  | .built _ _ (.incompatible _) => true
  | _ => false

/-- The hash supplied by an op, if any. -/
def suppliedHash : InsertOp → Option Hashes
  | .built _ h _ => h
  | .source _ h _ => h

/-- A dist was inserted with a verdict of Compatible somewhere in a sequence. -/
def insertedCompatible (ops : List InsertOp) (d : Dist) : Prop :=
  (∃ h p, InsertOp.built d h (.compatible p) ∈ ops)
    ∨ (∃ h, InsertOp.source d h .compatible ∈ ops)

/-- Scenario for the exclude-newer displacement claim: three incompatible
wheels with timestamps Some 100, Some 50, None. -/
def excludeNewerOps : List InsertOp :=
  [ .built "W1" none (.incompatible (.excludeNewer (some 100)))
  , .built "W2" none (.incompatible (.excludeNewer (some 50)))
  , .built "W3" none (.incompatible (.excludeNewer none)) ]

/-- Scenario for the yank claim: a bare yank followed by a reason-bearing yank. -/
def yankedOps : List InsertOp :=
  [ .built "W1" none (.incompatible (.yanked .noReason))
  , .built "W2" none (.incompatible (.yanked (.reason "broken"))) ]

/-! Projection equations for the two insertion operations. -/

theorem insert_built_compatible_source (b : PrioritizedDist) (d : Dist)
    (h : Option Hashes) (c : WheelCompatibility) :
    (b.insert_built d h c).compatible_source = b.compatible_source := by
  cases c <;> cases h <;>
    simp only [PrioritizedDist.insert_built] <;> split <;> (try split) <;> rfl

theorem insert_built_incompatible_source (b : PrioritizedDist) (d : Dist)
    (h : Option Hashes) (c : WheelCompatibility) :
    (b.insert_built d h c).incompatible_source = b.incompatible_source := by
  cases c <;> cases h <;>
    simp only [PrioritizedDist.insert_built] <;> split <;> (try split) <;> rfl

theorem insert_built_compat_wheel_of_incompat (b : PrioritizedDist) (d : Dist)
    (h : Option Hashes) (r : IncompatibleWheel) :
    (b.insert_built d h (.incompatible r)).compatible_wheel = b.compatible_wheel := by
  cases h <;>
    simp only [PrioritizedDist.insert_built] <;> split <;> (try split) <;> rfl

theorem insert_built_incompat_wheel_of_compat (b : PrioritizedDist) (d : Dist)
    (h : Option Hashes) (p : TagPriority) :
    (b.insert_built d h (.compatible p)).incompatible_wheel = b.incompatible_wheel := by
  cases h <;>
    simp only [PrioritizedDist.insert_built] <;> split <;> (try split) <;> rfl

theorem insert_built_compat_wheel_none (b : PrioritizedDist) (d : Dist)
    (h : Option Hashes) (p : TagPriority) (hb : b.compatible_wheel = none) :
    (b.insert_built d h (.compatible p)).compatible_wheel = some (d, p) := by
  cases h <;> simp only [PrioritizedDist.insert_built, hb] <;> rfl

theorem insert_built_compat_wheel_some (b : PrioritizedDist) (d : Dist)
    (h : Option Hashes) (p : TagPriority) (d0 : Dist) (p0 : TagPriority)
    (hb : b.compatible_wheel = some (d0, p0)) :
    (b.insert_built d h (.compatible p)).compatible_wheel =
      if p0 < p then some (d, p) else some (d0, p0) := by
  cases h <;> simp only [PrioritizedDist.insert_built, hb] <;> split <;>
    simp [hb, *]

theorem insert_built_incompat_wheel_none (b : PrioritizedDist) (d : Dist)
    (h : Option Hashes) (r : IncompatibleWheel) (hb : b.incompatible_wheel = none) :
    (b.insert_built d h (.incompatible r)).incompatible_wheel = some (d, r) := by
  cases h <;> simp only [PrioritizedDist.insert_built, hb] <;> rfl

theorem insert_built_incompat_wheel_some (b : PrioritizedDist) (d : Dist)
    (h : Option Hashes) (r : IncompatibleWheel) (d0 : Dist) (r0 : IncompatibleWheel)
    (hb : b.incompatible_wheel = some (d0, r0)) :
    (b.insert_built d h (.incompatible r)).incompatible_wheel =
      if r.is_more_compatible r0 then some (d, r) else some (d0, r0) := by
  cases h <;> simp only [PrioritizedDist.insert_built, hb] <;> split <;>
    simp [hb, *]

theorem insert_built_hashes (b : PrioritizedDist) (d : Dist)
    (h : Option Hashes) (c : WheelCompatibility) :
    (b.insert_built d h c).hashes = b.hashes ++ h.toList := by
  cases c <;> cases h <;>
    simp only [PrioritizedDist.insert_built, Option.toList] <;>
      split <;> (try split) <;> simp

theorem insert_source_compatible_wheel (b : PrioritizedDist) (d : Dist)
    (h : Option Hashes) (c : SourceDistCompatibility) :
    (b.insert_source d h c).compatible_wheel = b.compatible_wheel := by
  cases c <;> cases h <;>
    simp only [PrioritizedDist.insert_source] <;> split <;> (try split) <;> rfl

theorem insert_source_incompatible_wheel (b : PrioritizedDist) (d : Dist)
    (h : Option Hashes) (c : SourceDistCompatibility) :
    (b.insert_source d h c).incompatible_wheel = b.incompatible_wheel := by
  cases c <;> cases h <;>
    simp only [PrioritizedDist.insert_source] <;> split <;> (try split) <;> rfl

theorem insert_source_compat_source_none (b : PrioritizedDist) (d : Dist)
    (h : Option Hashes) (hb : b.compatible_source = none) :
    (b.insert_source d h .compatible).compatible_source = some d := by
  cases h <;> simp only [PrioritizedDist.insert_source, hb] <;> rfl

theorem insert_source_compat_source_some (b : PrioritizedDist) (d : Dist)
    (h : Option Hashes) (s : Dist) (hb : b.compatible_source = some s) :
    (b.insert_source d h .compatible).compatible_source = some s := by
  cases h <;> simp only [PrioritizedDist.insert_source, hb] <;> rfl

theorem insert_source_compat_source_of_incompat (b : PrioritizedDist) (d : Dist)
    (h : Option Hashes) (r : IncompatibleSource) :
    (b.insert_source d h (.incompatible r)).compatible_source = b.compatible_source := by
  cases h <;>
    simp only [PrioritizedDist.insert_source] <;> split <;> (try split) <;> rfl

theorem insert_source_hashes (b : PrioritizedDist) (d : Dist)
    (h : Option Hashes) (c : SourceDistCompatibility) :
    (b.insert_source d h c).hashes = b.hashes ++ h.toList := by
  cases c <;> cases h <;>
    simp only [PrioritizedDist.insert_source, Option.toList] <;>
      split <;> (try split) <;> simp

/-! Evolution of the slots under one insertion and under a sequence. -/

theorem applyOps_nil (b : PrioritizedDist) : applyOps b [] = b := rfl

theorem applyOps_cons (b : PrioritizedDist) (op : InsertOp) (ops : List InsertOp) :
    applyOps b (op :: ops) = applyOps (applyOp b op) ops := rfl

theorem compatPriorities_cons (op : InsertOp) (ops : List InsertOp) :
    compatPriorities (op :: ops) =
      match compatPriority op with
      | some q => q :: compatPriorities ops
      | none => compatPriorities ops := by
  simp only [compatPriorities, List.filterMap_cons]
  cases hq : compatPriority op <;> simp

theorem applyOp_compat_source_some (b : PrioritizedDist) (op : InsertOp)
    (s : Dist) (hb : b.compatible_source = some s) :
    (applyOp b op).compatible_source = some s := by
  cases op with
  | built d h c => rw [applyOp, insert_built_compatible_source]; exact hb
  | source d h c =>
    cases c with
    | compatible => exact insert_source_compat_source_some b d h s hb
    | incompatible r => rw [applyOp, insert_source_compat_source_of_incompat]; exact hb

theorem applyOps_compat_source_some (ops : List InsertOp) :
    ∀ (b : PrioritizedDist) (s : Dist), b.compatible_source = some s →
      (applyOps b ops).compatible_source = some s := by
  induction ops with
  | nil => intro b s hb; exact hb
  | cons op rest ih =>
    intro b s hb
    rw [applyOps_cons]
    exact ih _ s (applyOp_compat_source_some b op s hb)

theorem applyOp_compat_source_origin (b : PrioritizedDist) (op : InsertOp)
    (s : Dist) (hs : (applyOp b op).compatible_source = some s) :
    b.compatible_source = some s ∨ ∃ h, op = .source s h .compatible := by
  cases op with
  | built d h c =>
    rw [applyOp, insert_built_compatible_source] at hs
    exact Or.inl hs
  | source d h c =>
    cases c with
    | compatible =>
      cases hb : b.compatible_source with
      | some s0 =>
        rw [applyOp, insert_source_compat_source_some b d h s0 hb] at hs
        exact Or.inl hs
      | none =>
        rw [applyOp, insert_source_compat_source_none b d h hb] at hs
        cases hs
        exact Or.inr ⟨h, rfl⟩
    | incompatible r =>
      rw [applyOp, insert_source_compat_source_of_incompat] at hs
      exact Or.inl hs

theorem applyOps_compat_source_origin (ops : List InsertOp) :
    ∀ (b : PrioritizedDist) (s : Dist), (applyOps b ops).compatible_source = some s →
      b.compatible_source = some s ∨ ∃ h, InsertOp.source s h .compatible ∈ ops := by
  induction ops with
  | nil => intro b s hb; exact Or.inl hb
  | cons op rest ih =>
    intro b s hs
    rw [applyOps_cons] at hs
    rcases ih _ s hs with h1 | ⟨h, hmem⟩
    · rcases applyOp_compat_source_origin b op s h1 with h2 | ⟨h, rfl⟩
      · exact Or.inl h2
      · exact Or.inr ⟨h, List.mem_cons_self _ _⟩
    · exact Or.inr ⟨h, List.mem_cons_of_mem _ hmem⟩

theorem applyOp_compat_source_isSome (b : PrioritizedDist) (d : Dist) (h : Option Hashes) :
    ∃ s, (applyOp b (.source d h .compatible)).compatible_source = some s := by
  cases hb : b.compatible_source with
  | some s0 => exact ⟨s0, insert_source_compat_source_some b d h s0 hb⟩
  | none => exact ⟨d, insert_source_compat_source_none b d h hb⟩

theorem applyOps_compat_source_isSome (ops : List InsertOp) :
    ∀ (b : PrioritizedDist) (s : Dist) (h : Option Hashes),
      InsertOp.source s h .compatible ∈ ops →
      ∃ s2, (applyOps b ops).compatible_source = some s2 := by
  induction ops with
  | nil => intro b s h hmem; cases hmem
  | cons op rest ih =>
    intro b s h hmem
    rw [applyOps_cons]
    rcases List.mem_cons.mp hmem with rfl | hmem2
    · obtain ⟨s1, hs1⟩ := applyOp_compat_source_isSome b s h
      exact ⟨s1, applyOps_compat_source_some rest _ s1 hs1⟩
    · exact ih _ s h hmem2

theorem applyOp_compat_wheel_mono (b : PrioritizedDist) (op : InsertOp)
    (d : Dist) (p : TagPriority) (hb : b.compatible_wheel = some (d, p)) :
    ∃ d2 p2, (applyOp b op).compatible_wheel = some (d2, p2) ∧ p ≤ p2 := by
  cases op with
  | built d1 h c =>
    cases c with
    | compatible q =>
      rw [applyOp, insert_built_compat_wheel_some b d1 h q d p hb]
      by_cases hpq : p < q
      · exact ⟨d1, q, by simp [hpq], Nat.le_of_lt hpq⟩
      · exact ⟨d, p, by simp [hpq], Nat.le_refl p⟩
    | incompatible r =>
      rw [applyOp, insert_built_compat_wheel_of_incompat]
      exact ⟨d, p, hb, Nat.le_refl p⟩
  | source d1 h c =>
    rw [applyOp, insert_source_compatible_wheel]
    exact ⟨d, p, hb, Nat.le_refl p⟩

theorem applyOps_compat_wheel_mono (ops : List InsertOp) :
    ∀ (b : PrioritizedDist) (d : Dist) (p : TagPriority),
      b.compatible_wheel = some (d, p) →
      ∃ d2 p2, (applyOps b ops).compatible_wheel = some (d2, p2) ∧ p ≤ p2 := by
  induction ops with
  | nil => intro b d p hb; exact ⟨d, p, hb, Nat.le_refl p⟩
  | cons op rest ih =>
    intro b d p hb
    rw [applyOps_cons]
    obtain ⟨d1, p1, h1, hp1⟩ := applyOp_compat_wheel_mono b op d p hb
    obtain ⟨d2, p2, h2, hp2⟩ := ih _ d1 p1 h1
    exact ⟨d2, p2, h2, Nat.le_trans hp1 hp2⟩

theorem applyOp_compat_wheel_origin (b : PrioritizedDist) (op : InsertOp)
    (d : Dist) (p : TagPriority) (hs : (applyOp b op).compatible_wheel = some (d, p)) :
    b.compatible_wheel = some (d, p) ∨ ∃ h, op = .built d h (.compatible p) := by
  cases op with
  | built d1 h c =>
    cases c with
    | compatible q =>
      cases hb : b.compatible_wheel with
      | some x =>
        obtain ⟨d0, p0⟩ := x
        rw [applyOp, insert_built_compat_wheel_some b d1 h q d0 p0 hb] at hs
        by_cases hpq : p0 < q
        · simp only [hpq, if_true] at hs
          cases hs
          exact Or.inr ⟨h, rfl⟩
        · simp only [hpq, if_false] at hs
          exact Or.inl hs
      | none =>
        rw [applyOp, insert_built_compat_wheel_none b d1 h q hb] at hs
        cases hs
        exact Or.inr ⟨h, rfl⟩
    | incompatible r =>
      rw [applyOp, insert_built_compat_wheel_of_incompat] at hs
      exact Or.inl hs
  | source d1 h c =>
    rw [applyOp, insert_source_compatible_wheel] at hs
    exact Or.inl hs

theorem applyOps_compat_wheel_origin (ops : List InsertOp) :
    ∀ (b : PrioritizedDist) (d : Dist) (p : TagPriority),
      (applyOps b ops).compatible_wheel = some (d, p) →
      b.compatible_wheel = some (d, p) ∨
        ∃ h, InsertOp.built d h (.compatible p) ∈ ops := by
  induction ops with
  | nil => intro b d p hb; exact Or.inl hb
  | cons op rest ih =>
    intro b d p hs
    rw [applyOps_cons] at hs
    rcases ih _ d p hs with h1 | ⟨h, hmem⟩
    · rcases applyOp_compat_wheel_origin b op d p h1 with h2 | ⟨h, rfl⟩
      · exact Or.inl h2
      · exact Or.inr ⟨h, List.mem_cons_self _ _⟩
    · exact Or.inr ⟨h, List.mem_cons_of_mem _ hmem⟩

theorem applyOp_compat_wheel_lb (b : PrioritizedDist) (d : Dist)
    (h : Option Hashes) (q : TagPriority) :
    ∃ d1 p1, (applyOp b (.built d h (.compatible q))).compatible_wheel = some (d1, p1)
      ∧ q ≤ p1 := by
  cases hb : b.compatible_wheel with
  | some x =>
    obtain ⟨d0, p0⟩ := x
    rw [applyOp, insert_built_compat_wheel_some b d h q d0 p0 hb]
    by_cases hpq : p0 < q
    · exact ⟨d, q, by simp [hpq], Nat.le_refl q⟩
    · exact ⟨d0, p0, by simp [hpq], Nat.le_of_not_lt hpq⟩
  | none =>
    rw [applyOp, insert_built_compat_wheel_none b d h q hb]
    exact ⟨d, q, rfl, Nat.le_refl q⟩

theorem applyOp_compat_wheel_skip (b : PrioritizedDist) (op : InsertOp)
    (hq : compatPriority op = none) :
    (applyOp b op).compatible_wheel = b.compatible_wheel := by
  cases op with
  | built d h c =>
    cases c with
    | compatible q => simp [compatPriority] at hq
    | incompatible r => exact insert_built_compat_wheel_of_incompat b d h r
  | source d h c => exact insert_source_compatible_wheel b d h c

theorem applyOps_compat_wheel_none_of (ops : List InsertOp) :
    ∀ (b : PrioritizedDist), b.compatible_wheel = none → compatPriorities ops = [] →
      (applyOps b ops).compatible_wheel = none := by
  induction ops with
  | nil => intro b hb _; exact hb
  | cons op rest ih =>
    intro b hb hops
    rw [compatPriorities_cons] at hops
    cases hq : compatPriority op with
    | some q => rw [hq] at hops; cases hops
    | none =>
      rw [hq] at hops
      rw [applyOps_cons]
      exact ih _ (by rw [applyOp_compat_wheel_skip b op hq]; exact hb) hops

theorem applyOps_compat_wheel_isSome (ops : List InsertOp) :
    ∀ (b : PrioritizedDist) (d : Dist) (h : Option Hashes) (p : TagPriority),
      InsertOp.built d h (.compatible p) ∈ ops →
      ∃ d2 p2, (applyOps b ops).compatible_wheel = some (d2, p2) := by
  induction ops with
  | nil => intro b d h p hmem; cases hmem
  | cons op rest ih =>
    intro b d h p hmem
    rw [applyOps_cons]
    rcases List.mem_cons.mp hmem with rfl | hmem2
    · obtain ⟨d1, p1, h1, _⟩ := applyOp_compat_wheel_lb b d h p
      obtain ⟨d2, p2, h2, _⟩ := applyOps_compat_wheel_mono rest _ d1 p1 h1
      exact ⟨d2, p2, h2⟩
    · exact ih _ d h p hmem2

theorem applyOps_compat_wheel_ub (ops : List InsertOp) :
    ∀ (b : PrioritizedDist) (d : Dist) (p : TagPriority),
      (applyOps b ops).compatible_wheel = some (d, p) →
      ∀ q ∈ compatPriorities ops, q ≤ p := by
  induction ops with
  | nil => intro b d p _ q hq; cases hq
  | cons op rest ih =>
    intro b d p hs q hq
    rw [applyOps_cons] at hs
    rw [compatPriorities_cons] at hq
    cases hop : compatPriority op with
    | some q0 =>
      rw [hop] at hq
      rcases List.mem_cons.mp hq with rfl | hq2
      · obtain ⟨dd, hh, rfl⟩ : ∃ dd hh, op = .built dd hh (.compatible q) := by
          cases op with
          | built dd hh c =>
            cases c with
            | compatible qq =>
              simp only [compatPriority, Option.some.injEq] at hop
              exact ⟨dd, hh, by rw [hop]⟩
            | incompatible r => simp [compatPriority] at hop
          | source dd hh c => simp [compatPriority] at hop
        obtain ⟨d1, p1, h1, hqp1⟩ := applyOp_compat_wheel_lb b dd hh q
        obtain ⟨d2, p2, h2, hp12⟩ := applyOps_compat_wheel_mono rest _ d1 p1 h1
        rw [hs] at h2
        cases h2
        exact Nat.le_trans hqp1 hp12
      · exact ih _ d p hs q hq2
    | none =>
      rw [hop] at hq
      exact ih _ d p hs q hq

theorem applyOp_incompat_wheel_origin (b : PrioritizedDist) (op : InsertOp)
    (d : Dist) (r : IncompatibleWheel)
    (hs : (applyOp b op).incompatible_wheel = some (d, r)) :
    b.incompatible_wheel = some (d, r) ∨ ∃ h, op = .built d h (.incompatible r) := by
  cases op with
  | built d1 h c =>
    cases c with
    | compatible q =>
      rw [applyOp, insert_built_incompat_wheel_of_compat] at hs
      exact Or.inl hs
    | incompatible r1 =>
      cases hb : b.incompatible_wheel with
      | some x =>
        obtain ⟨d0, r0⟩ := x
        rw [applyOp, insert_built_incompat_wheel_some b d1 h r1 d0 r0 hb] at hs
        by_cases hm : r1.is_more_compatible r0
        · simp only [hm, if_true] at hs
          cases hs
          exact Or.inr ⟨h, rfl⟩
        · simp only [hm, if_false] at hs
          exact Or.inl hs
      | none =>
        rw [applyOp, insert_built_incompat_wheel_none b d1 h r1 hb] at hs
        cases hs
        exact Or.inr ⟨h, rfl⟩
  | source d1 h c =>
    rw [applyOp, insert_source_incompatible_wheel] at hs
    exact Or.inl hs

theorem applyOps_incompat_wheel_origin (ops : List InsertOp) :
    ∀ (b : PrioritizedDist) (d : Dist) (r : IncompatibleWheel),
      (applyOps b ops).incompatible_wheel = some (d, r) →
      b.incompatible_wheel = some (d, r) ∨
        ∃ h, InsertOp.built d h (.incompatible r) ∈ ops := by
  induction ops with
  | nil => intro b d r hb; exact Or.inl hb
  | cons op rest ih =>
    intro b d r hs
    rw [applyOps_cons] at hs
    rcases ih _ d r hs with h1 | ⟨h, hmem⟩
    · rcases applyOp_incompat_wheel_origin b op d r h1 with h2 | ⟨h, rfl⟩
      · exact Or.inl h2
      · exact Or.inr ⟨h, List.mem_cons_self _ _⟩
    · exact Or.inr ⟨h, List.mem_cons_of_mem _ hmem⟩

theorem applyOp_incompat_wheel_skip (b : PrioritizedDist) (op : InsertOp)
    (hq : isIncompatBuilt op = false) :
    (applyOp b op).incompatible_wheel = b.incompatible_wheel := by
  cases op with
  | built d h c =>
    cases c with
    | compatible q => exact insert_built_incompat_wheel_of_compat b d h q
    | incompatible r => simp [isIncompatBuilt] at hq
  | source d h c => exact insert_source_incompatible_wheel b d h c

theorem applyOp_incompat_wheel_stable (b : PrioritizedDist) (op : InsertOp)
    (x : Dist × IncompatibleWheel) (hb : b.incompatible_wheel = some x) :
    ∃ y, (applyOp b op).incompatible_wheel = some y := by
  obtain ⟨d0, r0⟩ := x
  cases op with
  | built d h c =>
    cases c with
    | compatible q =>
      rw [applyOp, insert_built_incompat_wheel_of_compat]
      exact ⟨(d0, r0), hb⟩
    | incompatible r =>
      rw [applyOp, insert_built_incompat_wheel_some b d h r d0 r0 hb]
      by_cases hm : r.is_more_compatible r0
      · exact ⟨(d, r), by simp [hm]⟩
      · exact ⟨(d0, r0), by simp [hm]⟩
  | source d h c =>
    rw [applyOp, insert_source_incompatible_wheel]
    exact ⟨(d0, r0), hb⟩

theorem applyOps_incompat_wheel_stable (ops : List InsertOp) :
    ∀ (b : PrioritizedDist) (x : Dist × IncompatibleWheel),
      b.incompatible_wheel = some x →
      ∃ y, (applyOps b ops).incompatible_wheel = some y := by
  induction ops with
  | nil => intro b x hb; exact ⟨x, hb⟩
  | cons op rest ih =>
    intro b x hb
    rw [applyOps_cons]
    obtain ⟨y, hy⟩ := applyOp_incompat_wheel_stable b op x hb
    exact ih _ y hy

theorem applyOps_incompat_wheel_isSome (ops : List InsertOp) :
    ∀ (b : PrioritizedDist) (d : Dist) (h : Option Hashes) (r : IncompatibleWheel),
      InsertOp.built d h (.incompatible r) ∈ ops →
      ∃ y, (applyOps b ops).incompatible_wheel = some y := by
  induction ops with
  | nil => intro b d h r hmem; cases hmem
  | cons op rest ih =>
    intro b d h r hmem
    rw [applyOps_cons]
    rcases List.mem_cons.mp hmem with rfl | hmem2
    · cases hb : b.incompatible_wheel with
      | some x =>
        obtain ⟨y, hy⟩ := applyOp_incompat_wheel_stable b _ x hb
        exact applyOps_incompat_wheel_stable rest _ y hy
      | none =>
        exact applyOps_incompat_wheel_stable rest _ (d, r)
          (insert_built_incompat_wheel_none b d h r hb)
    · exact ih _ d h r hmem2

theorem applyOps_incompat_wheel_none_of (ops : List InsertOp) :
    ∀ (b : PrioritizedDist), b.incompatible_wheel = none →
      (∀ op ∈ ops, isIncompatBuilt op = false) →
      (applyOps b ops).incompatible_wheel = none := by
  induction ops with
  | nil => intro b hb _; exact hb
  | cons op rest ih =>
    intro b hb hops
    rw [applyOps_cons]
    refine ih _ ?_ (fun o ho => hops o (List.mem_cons_of_mem _ ho))
    rw [applyOp_incompat_wheel_skip b op (hops op (List.mem_cons_self _ _))]
    exact hb

/-! Uniqueness of inserted candidates under the tie-freedom hypotheses. -/

theorem mem_compatPriorities (ops : List InsertOp) (d : Dist) (h : Option Hashes)
    (p : TagPriority) (hmem : InsertOp.built d h (.compatible p) ∈ ops) :
    p ∈ compatPriorities ops := by
  exact List.mem_filterMap.mpr ⟨_, hmem, rfl⟩

theorem built_compat_unique (ops : List InsertOp) :
    (compatPriorities ops).Nodup →
    ∀ (d : Dist) (h : Option Hashes) (p : TagPriority)
      (d2 : Dist) (h2 : Option Hashes),
      InsertOp.built d h (.compatible p) ∈ ops →
      InsertOp.built d2 h2 (.compatible p) ∈ ops →
      d = d2 := by
  induction ops with
  | nil => intro _ d h p d2 h2 hm _; cases hm
  | cons op rest ih =>
    intro hnd d h p d2 h2 hm hm2
    rw [compatPriorities_cons] at hnd
    rcases List.mem_cons.mp hm with rfl | hmr
    · rcases List.mem_cons.mp hm2 with heq | hmr2
      · cases heq; rfl
      · exfalso
        simp only [compatPriority] at hnd
        have hp : p ∈ compatPriorities rest := mem_compatPriorities rest d2 h2 p hmr2
        exact (List.nodup_cons.mp hnd).1 hp
    · rcases List.mem_cons.mp hm2 with heq | hmr2
      · exfalso
        cases heq
        simp only [compatPriority] at hnd
        have hp : p ∈ compatPriorities rest := mem_compatPriorities rest d h p hmr
        exact (List.nodup_cons.mp hnd).1 hp
      · refine ih ?_ d h p d2 h2 hmr hmr2
        cases hq : compatPriority op with
        | some q => rw [hq] at hnd; exact (List.nodup_cons.mp hnd).2
        | none => rw [hq] at hnd; exact hnd

theorem filter_length_le_one_unique {α : Type} (l : List α) (q : α → Bool)
    (hlen : (l.filter q).length ≤ 1) (a b : α)
    (ha : a ∈ l) (hqa : q a = true) (hb : b ∈ l) (hqb : q b = true) : a = b := by
  have ha2 : a ∈ l.filter q := List.mem_filter.mpr ⟨ha, hqa⟩
  have hb2 : b ∈ l.filter q := List.mem_filter.mpr ⟨hb, hqb⟩
  cases hl : l.filter q with
  | nil => rw [hl] at ha2; cases ha2
  | cons x t =>
    cases t with
    | nil =>
      rw [hl] at ha2 hb2
      rcases List.mem_singleton.mp ha2 with rfl
      rcases List.mem_singleton.mp hb2 with rfl
      rfl
    | cons y t2 => rw [hl] at hlen; simp at hlen

theorem get_congr (b1 b2 : PrioritizedDist)
    (h1 : b1.compatible_wheel = b2.compatible_wheel)
    (h2 : b1.compatible_source = b2.compatible_source)
    (h3 : b1.incompatible_wheel = b2.incompatible_wheel) : b1.get = b2.get := by
  unfold PrioritizedDist.get
  rw [h1, h2, h3]

/-! Hash accumulation lemmas. -/

theorem applyOp_hashes (b : PrioritizedDist) (op : InsertOp) :
    (applyOp b op).hashes = b.hashes ++ (suppliedHash op).toList := by
  cases op with
  | built d h c => exact insert_built_hashes b d h c
  | source d h c => exact insert_source_hashes b d h c

theorem applyOps_hashes (ops : List InsertOp) :
    ∀ b : PrioritizedDist,
      (applyOps b ops).hashes = b.hashes ++ ops.filterMap suppliedHash := by
  induction ops with
  | nil => intro b; simp [applyOps_nil]
  | cons op rest ih =>
    intro b
    rw [applyOps_cons, ih, applyOp_hashes, List.filterMap_cons]
    cases hop : suppliedHash op <;> simp [Option.toList]

theorem from_built_hashes (d : Dist) (h : Option Hashes) (c : WheelCompatibility) :
    (PrioritizedDist.from_built d h c).hashes = h.toList := by
  cases c <;> cases h <;> rfl

theorem from_source_hashes (d : Dist) (h : Option Hashes) (c : SourceDistCompatibility) :
    (PrioritizedDist.from_source d h c).hashes = h.toList := by
  cases c <;> cases h <;> rfl

theorem length_filterMap_suppliedHash (ops : List InsertOp) :
    (ops.filterMap suppliedHash).length
      = (ops.filter (fun op => (suppliedHash op).isSome)).length := by
  induction ops with
  | nil => rfl
  | cons op rest ih =>
    cases hop : suppliedHash op <;>
      simp [List.filterMap_cons, List.filter_cons, hop, ih]

/-! Antisymmetry and irreflexivity analysis of the two informativeness relations. -/

theorem wheel_antisym_aux (a b : IncompatibleWheel) :
    (a.is_more_compatible b = true ∧ b.is_more_compatible a = true) ↔
      ((a = .excludeNewer none ∧ b = .excludeNewer none)
        ∨ (∃ r1 r2, a = .yanked (.reason r1) ∧ b = .yanked (.reason r2))) := by
  cases a <;> cases b
  case excludeNewer.excludeNewer s o =>
    cases s <;> cases o <;>
      simp [IncompatibleWheel.is_more_compatible] <;>
        exact fun h => le_of_lt h
  case tag.tag s o =>
    simp [IncompatibleWheel.is_more_compatible]
    exact fun h => le_of_lt h
  case yanked.yanked y1 y2 =>
    cases y1 with
    | noReason => cases y2 <;> simp [IncompatibleWheel.is_more_compatible]
    | reason w1 =>
      cases y2 with
      | noReason => simp [IncompatibleWheel.is_more_compatible]
      | reason w2 =>
        constructor
        · intro _
          exact Or.inr ⟨w1, w2, rfl, rfl⟩
        · intro _
          exact ⟨rfl, rfl⟩
  all_goals simp [IncompatibleWheel.is_more_compatible]

theorem wheel_irrefl_aux (a : IncompatibleWheel) :
    a.is_more_compatible a = true ↔
      (a = .excludeNewer none ∨ ∃ r, a = .yanked (.reason r)) := by
  cases a
  case excludeNewer s =>
    cases s <;> simp [IncompatibleWheel.is_more_compatible]
  case tag s =>
    simp [IncompatibleWheel.is_more_compatible]
  case yanked y =>
    cases y <;> simp [IncompatibleWheel.is_more_compatible]
  all_goals simp [IncompatibleWheel.is_more_compatible]

theorem source_antisym_aux (a b : IncompatibleSource) :
    (a.is_more_compatible b = true ∧ b.is_more_compatible a = true) ↔
      (∃ r1 r2, a = .yanked (.reason r1) ∧ b = .yanked (.reason r2)) := by
  cases a <;> cases b
  case excludeNewer.excludeNewer s o =>
    cases s <;> cases o <;>
      simp [IncompatibleSource.is_more_compatible, optionIntLt] <;>
        exact fun h => le_of_lt h
  case yanked.yanked y1 y2 =>
    cases y1 with
    | noReason => cases y2 <;> simp [IncompatibleSource.is_more_compatible]
    | reason w1 =>
      cases y2 with
      | noReason => simp [IncompatibleSource.is_more_compatible]
      | reason w2 =>
        constructor
        · intro _
          exact ⟨w1, w2, rfl, rfl⟩
        · intro _
          exact ⟨rfl, rfl⟩
  all_goals simp [IncompatibleSource.is_more_compatible, optionIntLt]

theorem source_irrefl_aux (a : IncompatibleSource) :
    a.is_more_compatible a = true ↔ ∃ r, a = .yanked (.reason r) := by
  cases a
  case excludeNewer s =>
    cases s <;> simp [IncompatibleSource.is_more_compatible, optionIntLt]
  case yanked y =>
    cases y <;> simp [IncompatibleSource.is_more_compatible]
  all_goals simp [IncompatibleSource.is_more_compatible]

/-! Claim theorems. -/

/-- Claim C1, counterexample: inserting incompatible wheels with reasons
ExcludeNewer(Some 100), ExcludeNewer(Some 50), ExcludeNewer(None) into an empty
bucket does NOT leave `incompatible_wheel` holding (W2, ExcludeNewer(Some 50))
as the claim states. -/
theorem C1_counterexample :
    (applyOps PrioritizedDist.default excludeNewerOps).incompatible_wheel
      ≠ some ("W2", .excludeNewer (some 50)) := by
  decide

/-- Claim C1, amended: after inserting W1 with ExcludeNewer(Some 100) and W2
with ExcludeNewer(Some 50), the slot still holds (W1, ExcludeNewer(Some 100)):
an incoming smaller timestamp never displaces a larger one, because
`is_more_compatible` replaces only when the existing timestamp is smaller than
the incoming one. Inserting W3 with ExcludeNewer(None) then displaces W1,
because the wheel relation treats an incoming None timestamp as more
informative than every held ExcludeNewer reason; the final slot is
(W3, ExcludeNewer(None)). -/
theorem C1_amended :
    (applyOps PrioritizedDist.default (excludeNewerOps.take 2)).incompatible_wheel
        = some ("W1", .excludeNewer (some 100))
      ∧ (applyOps PrioritizedDist.default excludeNewerOps).incompatible_wheel
        = some ("W3", .excludeNewer none) := by
  exact ⟨by decide, by decide⟩

/-- Claim C2: inserting an incompatible wheel yanked without reason and then
one yanked with reason "broken" into an empty bucket leaves the FIRST wheel
(bare yank) in `incompatible_wheel`: the code tests whether the EXISTING yank
carries a reason instead of the incoming one, so the reason-bearing yank never
displaces the bare yank, contradicting both the claim and the code's own
comment that yanks with a reason are more helpful for errors. -/
theorem C2_code_result :
    (applyOps PrioritizedDist.default yankedOps).incompatible_wheel
      = some ("W1", .yanked .noReason) := by
  decide

/-- Claim C3, counterexample: both informativeness relations return true on
reflexive Yanked(Reason _) inputs, the wheel relation returns true on the
reflexive ExcludeNewer(None) input, and the source relation returns true in
both directions on a pair of distinct reason-bearing yanks, so the relations
are neither irreflexive nor antisymmetric as claimed. -/
theorem C3_counterexample :
    IncompatibleWheel.is_more_compatible
        (.yanked (.reason "broken")) (.yanked (.reason "broken")) = true
      ∧ IncompatibleWheel.is_more_compatible
        (.excludeNewer none) (.excludeNewer none) = true
      ∧ IncompatibleSource.is_more_compatible
        (.yanked (.reason "a")) (.yanked (.reason "b")) = true
      ∧ IncompatibleSource.is_more_compatible
        (.yanked (.reason "b")) (.yanked (.reason "a")) = true
      ∧ IncompatibleSource.is_more_compatible
        (.yanked (.reason "a")) (.yanked (.reason "a")) = true := by
  decide

/-- Claim C3, amended: the two relations are antisymmetric and irreflexive on
every pair of reasons EXCEPT exactly these cases: for wheels, both arguments
ExcludeNewer(None), or both arguments reason-bearing yanks; for sources, both
arguments reason-bearing yanks. Reflexive cases return false except
ExcludeNewer(None) (wheels only) and Yanked(Reason _) (both relations). -/
theorem C3_amended :
    (∀ a b : IncompatibleWheel,
      (a.is_more_compatible b = true ∧ b.is_more_compatible a = true) ↔
        ((a = .excludeNewer none ∧ b = .excludeNewer none)
          ∨ (∃ r1 r2, a = .yanked (.reason r1) ∧ b = .yanked (.reason r2))))
    ∧ (∀ a : IncompatibleWheel,
        a.is_more_compatible a = true ↔
          (a = .excludeNewer none ∨ ∃ r, a = .yanked (.reason r)))
    ∧ (∀ a b : IncompatibleSource,
        (a.is_more_compatible b = true ∧ b.is_more_compatible a = true) ↔
          (∃ r1 r2, a = .yanked (.reason r1) ∧ b = .yanked (.reason r2)))
    ∧ (∀ a : IncompatibleSource,
        a.is_more_compatible a = true ↔ ∃ r, a = .yanked (.reason r)) :=
  ⟨wheel_antisym_aux, wheel_irrefl_aux, source_antisym_aux, source_irrefl_aux⟩

/-- Claim C4: `get` returns CompatibleWheel(w, p) whenever
`compatible_wheel = Some (w, p)` regardless of the other slots; otherwise
IncompatibleWheel with the compatible source and the incompatible wheel when
both are set; otherwise SourceDist of the compatible source; otherwise None. -/
theorem C4_get_precedence :
    ∀ b : PrioritizedDist,
      (∀ w p, b.compatible_wheel = some (w, p) →
        b.get = some (.compatibleWheel w p))
      ∧ (∀ s w r, b.compatible_wheel = none → b.compatible_source = some s →
          b.incompatible_wheel = some (w, r) →
          b.get = some (.incompatibleWheel s w))
      ∧ (∀ s, b.compatible_wheel = none → b.incompatible_wheel = none →
          b.compatible_source = some s → b.get = some (.sourceDist s))
      ∧ (b.compatible_wheel = none → b.compatible_source = none →
          b.get = none) := by
  intro b
  obtain ⟨cs, cw, iw, isrc, hs⟩ := b
  refine ⟨?_, ?_, ?_, ?_⟩ <;>
    cases cw <;> cases cs <;> cases iw <;> intros <;>
      simp_all [PrioritizedDist.get]

/-- Witness for claim C4 at a concrete bucket holding a compatible source and
an incompatible wheel but no compatible wheel. -/
theorem C4_witness :
    ({ compatible_source := some "S", compatible_wheel := none,
       incompatible_wheel := some ("W", .noBinary), incompatible_source := none,
       hashes := [] } : PrioritizedDist).get
      = some (.incompatibleWheel "S" "W") :=
  (C4_get_precedence _).2.1 "S" "W" .noBinary rfl rfl rfl

/-- Claim C9: after a constructor followed by any insertion sequence, the
hash list is exactly the constructor's optional hash followed by the supplied
hashes of the insertions in order (so it preserves order, keeps duplicates and
is never pruned), and its length is the number of operations that supplied a
hash. -/
theorem C9_hash_preservation :
    ∀ (d : Dist) (h : Option Hashes) (cw : WheelCompatibility)
      (cs : SourceDistCompatibility) (ops : List InsertOp),
      (applyOps (PrioritizedDist.from_built d h cw) ops).hashes
          = h.toList ++ ops.filterMap suppliedHash
        ∧ (applyOps (PrioritizedDist.from_source d h cs) ops).hashes
          = h.toList ++ ops.filterMap suppliedHash
        ∧ (applyOps (PrioritizedDist.from_built d h cw) ops).hashes.length
          = h.toList.length
            + (ops.filter (fun op => (suppliedHash op).isSome)).length := by
  intro d h cw cs ops
  refine ⟨?_, ?_, ?_⟩
  · rw [applyOps_hashes, from_built_hashes]
  · rw [applyOps_hashes, from_source_hashes]
  · rw [applyOps_hashes, from_built_hashes, List.length_append,
      length_filterMap_suppliedHash]

/-- Claim C10: the wheel and source relations disagree on unknown upload
timestamps. The source relation judges an incoming ExcludeNewer(Some t) more
informative than a held ExcludeNewer(None) (None sorts below every Some),
while the wheel relation judges ExcludeNewer(Some t) never more informative
than ExcludeNewer(None) and judges an incoming ExcludeNewer(None) more
informative than every held ExcludeNewer reason. -/
theorem C10_exclude_newer_divergence :
    ∀ t : Timestamp,
      IncompatibleSource.is_more_compatible
          (.excludeNewer (some t)) (.excludeNewer none) = true
        ∧ IncompatibleWheel.is_more_compatible
          (.excludeNewer (some t)) (.excludeNewer none) = false
        ∧ ∀ s : Option Timestamp,
            IncompatibleWheel.is_more_compatible
              (.excludeNewer none) (.excludeNewer s) = true := by
  intro t
  refine ⟨rfl, rfl, fun s => ?_⟩
  cases s <;> rfl

/-- Claim C5: `for_resolution` returns the wheel in the CompatibleWheel and
IncompatibleWheel cases and the source in the SourceDist case;
`for_installation` returns the source in the IncompatibleWheel case, the wheel
in the CompatibleWheel case and the source in the SourceDist case; and
`for_installation` applied to `get` of a bucket built from classified
insertions only ever yields a dist that some insertion rated Compatible. -/
theorem C5_projections :
    (∀ w p, (CompatibleDist.compatibleWheel w p).for_resolution = w)
    ∧ (∀ s w, (CompatibleDist.incompatibleWheel s w).for_resolution = w)
    ∧ (∀ s, (CompatibleDist.sourceDist s).for_resolution = s)
    ∧ (∀ w p, (CompatibleDist.compatibleWheel w p).for_installation = w)
    ∧ (∀ s w, (CompatibleDist.incompatibleWheel s w).for_installation = s)
    ∧ (∀ s, (CompatibleDist.sourceDist s).for_installation = s)
    ∧ (∀ (ops : List InsertOp) (cd : CompatibleDist),
        (applyOps PrioritizedDist.default ops).get = some cd →
        insertedCompatible ops cd.for_installation) := by
  refine ⟨fun w p => rfl, fun s w => rfl, fun s => rfl,
    fun w p => rfl, fun s w => rfl, fun s => rfl, ?_⟩
  intro ops cd hget
  unfold PrioritizedDist.get at hget
  cases hw : (applyOps PrioritizedDist.default ops).compatible_wheel with
  | some x =>
    obtain ⟨w, p⟩ := x
    rw [hw] at hget
    simp only [Option.some.injEq] at hget
    subst hget
    rcases applyOps_compat_wheel_origin ops PrioritizedDist.default w p hw with
      hc | ⟨h, hmem⟩
    · cases hc
    · exact Or.inl ⟨h, p, hmem⟩
  | none =>
    rw [hw] at hget
    cases hcs : (applyOps PrioritizedDist.default ops).compatible_source with
    | some s =>
      rw [hcs] at hget
      have hsrc : insertedCompatible ops s := by
        rcases applyOps_compat_source_origin ops PrioritizedDist.default s hcs with
          hc | ⟨h, hmem⟩
        · cases hc
        · exact Or.inr ⟨h, hmem⟩
      cases hiw : (applyOps PrioritizedDist.default ops).incompatible_wheel with
      | some y =>
        obtain ⟨w2, r⟩ := y
        rw [hiw] at hget
        simp only [Option.some.injEq] at hget
        subst hget
        exact hsrc
      | none =>
        rw [hiw] at hget
        simp only [Option.some.injEq] at hget
        subst hget
        exact hsrc
    | none =>
      rw [hcs] at hget
      cases hiw : (applyOps PrioritizedDist.default ops).incompatible_wheel with
      | some y => rw [hiw] at hget; cases hget
      | none => rw [hiw] at hget; cases hget

/-- Witness for claim C5 at the singleton insertion of a compatible source. -/
theorem C5_witness :
    insertedCompatible [InsertOp.source "S" none .compatible] "S" :=
  C5_projections.2.2.2.2.2.2 [InsertOp.source "S" none .compatible]
    (.sourceDist "S") (by decide)

/-- Claim C7: once `compatible_wheel` holds priority p, every later state
holds a priority at least p; `insert_built` with a Compatible verdict sets the
slot when it is empty and otherwise replaces it exactly when the incoming
priority is strictly greater, so equal-priority ties keep the first observed
candidate. -/
theorem C7_monotone_priority :
    (∀ (b : PrioritizedDist) (ops : List InsertOp) (d : Dist) (p : TagPriority),
      b.compatible_wheel = some (d, p) →
      ∃ d2 p2, (applyOps b ops).compatible_wheel = some (d2, p2) ∧ p ≤ p2)
    ∧ (∀ (b : PrioritizedDist) (d : Dist) (h : Option Hashes) (p : TagPriority),
        b.compatible_wheel = none →
        (b.insert_built d h (.compatible p)).compatible_wheel = some (d, p))
    ∧ (∀ (b : PrioritizedDist) (d0 : Dist) (p0 : TagPriority) (d : Dist)
        (h : Option Hashes) (p : TagPriority),
        b.compatible_wheel = some (d0, p0) →
        (b.insert_built d h (.compatible p)).compatible_wheel =
          if p0 < p then some (d, p) else some (d0, p0)) :=
  ⟨fun b ops d p hb => applyOps_compat_wheel_mono ops b d p hb,
   fun b d h p hb => insert_built_compat_wheel_none b d h p hb,
   fun b d0 p0 d h p hb => insert_built_compat_wheel_some b d h p d0 p0 hb⟩

/-- Witness for claim C7: inserting a compatible wheel into an empty bucket
sets the slot. -/
theorem C7_witness :
    (PrioritizedDist.default.insert_built "A" none
      (.compatible 3)).compatible_wheel = some ("A", 3) :=
  C7_monotone_priority.2.1 PrioritizedDist.default "A" none 3 rfl

/-- Claim C8: the `compatible_source` slot, once Some, is never overwritten or
cleared by any later operation; `insert_source` with a Compatible verdict sets
it only when it is None, and neither `insert_built` nor an incompatible
`insert_source` modifies it. -/
theorem C8_compat_source_stable :
    (∀ (b : PrioritizedDist) (ops : List InsertOp) (s : Dist),
      b.compatible_source = some s →
      (applyOps b ops).compatible_source = some s)
    ∧ (∀ (b : PrioritizedDist) (d : Dist) (h : Option Hashes),
        b.compatible_source = none →
        (b.insert_source d h .compatible).compatible_source = some d)
    ∧ (∀ (b : PrioritizedDist) (d : Dist) (h : Option Hashes) (s : Dist),
        b.compatible_source = some s →
        (b.insert_source d h .compatible).compatible_source = some s)
    ∧ (∀ (b : PrioritizedDist) (d : Dist) (h : Option Hashes)
        (c : WheelCompatibility),
        (b.insert_built d h c).compatible_source = b.compatible_source)
    ∧ (∀ (b : PrioritizedDist) (d : Dist) (h : Option Hashes)
        (r : IncompatibleSource),
        (b.insert_source d h (.incompatible r)).compatible_source
          = b.compatible_source) :=
  ⟨fun b ops s hb => applyOps_compat_source_some ops b s hb,
   insert_source_compat_source_none,
   insert_source_compat_source_some,
   insert_built_compatible_source,
   insert_source_compat_source_of_incompat⟩

/-- Witness for claim C8: a held compatible source survives a later
compatible source insertion. -/
theorem C8_witness :
    (applyOps
      { compatible_source := some "S", compatible_wheel := none,
        incompatible_wheel := none, incompatible_source := none, hashes := [] }
      [InsertOp.source "T" none .compatible]).compatible_source = some "S" :=
  C8_compat_source_stable.1 _ [InsertOp.source "T" none .compatible] "S" rfl

/-- Claim C6, counterexample: two insertion sequences that are permutations of
each other and contain no strict-greater priority ties (no compatible wheels at
all) can select different artifacts: first, two distinct compatible sources
keep the first arrival; second, two incomparable RequiresPython incompatible
wheels beside a compatible source keep the first arrival in the
IncompatibleWheel projection. -/
theorem C6_counterexample :
    (([InsertOp.source "S1" none .compatible,
        InsertOp.source "S2" none .compatible] : List InsertOp).Perm
        [InsertOp.source "S2" none .compatible,
         InsertOp.source "S1" none .compatible]
      ∧ (compatPriorities
          [InsertOp.source "S1" none .compatible,
           InsertOp.source "S2" none .compatible]).Nodup
      ∧ (applyOps PrioritizedDist.default
          [InsertOp.source "S1" none .compatible,
           InsertOp.source "S2" none .compatible]).get
        ≠ (applyOps PrioritizedDist.default
          [InsertOp.source "S2" none .compatible,
           InsertOp.source "S1" none .compatible]).get)
    ∧ (([InsertOp.source "S" none .compatible,
         InsertOp.built "W1" none (.incompatible (.requiresPython "a")),
         InsertOp.built "W2" none (.incompatible (.requiresPython "b"))] :
          List InsertOp).Perm
        [InsertOp.source "S" none .compatible,
         InsertOp.built "W2" none (.incompatible (.requiresPython "b")),
         InsertOp.built "W1" none (.incompatible (.requiresPython "a"))]
      ∧ (compatPriorities
          [InsertOp.source "S" none .compatible,
           InsertOp.built "W1" none (.incompatible (.requiresPython "a")),
           InsertOp.built "W2" none (.incompatible (.requiresPython "b"))]).Nodup
      ∧ (applyOps PrioritizedDist.default
          [InsertOp.source "S" none .compatible,
           InsertOp.built "W1" none (.incompatible (.requiresPython "a")),
           InsertOp.built "W2" none (.incompatible (.requiresPython "b"))]).get
        ≠ (applyOps PrioritizedDist.default
          [InsertOp.source "S" none .compatible,
           InsertOp.built "W2" none (.incompatible (.requiresPython "b")),
           InsertOp.built "W1" none (.incompatible (.requiresPython "a"))]).get) :=
  ⟨⟨List.Perm.swap _ _ _, by decide, by decide⟩,
   ⟨List.Perm.cons _ (List.Perm.swap _ _ _), by decide, by decide⟩⟩

/-- Claim C6, amended: two insertion sequences into an initially empty bucket
that are permutations of each other select the same artifact in `get`,
provided additionally that the compatible-wheel priorities are pairwise
distinct (no strict-greater ties), at most one insertion carries a compatible
source verdict, and at most one insertion carries an incompatible wheel
verdict; the last two conditions are forced because the compatible-source slot
is first-wins and the incompatible-wheel preorder has incomparable pairs that
are also resolved first-wins. -/
theorem C6_amended_commutativity :
    ∀ ops1 ops2 : List InsertOp, ops1.Perm ops2 →
      (compatPriorities ops1).Nodup →
      (ops1.filter isCompatSource).length ≤ 1 →
      (ops1.filter isIncompatBuilt).length ≤ 1 →
      (applyOps PrioritizedDist.default ops1).get
        = (applyOps PrioritizedDist.default ops2).get := by
  intro ops1 ops2 hperm hnd hcs hib
  have hnd2 : (compatPriorities ops2).Nodup :=
    ((hperm.filterMap compatPriority).nodup_iff).mp hnd
  have hcs2 : (ops2.filter isCompatSource).length ≤ 1 := by
    rw [← (hperm.filter isCompatSource).length_eq]
    exact hcs
  have hib2 : (ops2.filter isIncompatBuilt).length ≤ 1 := by
    rw [← (hperm.filter isIncompatBuilt).length_eq]
    exact hib
  apply get_congr
  · cases h1 : (applyOps PrioritizedDist.default ops1).compatible_wheel with
    | none =>
      cases h2 : (applyOps PrioritizedDist.default ops2).compatible_wheel with
      | none => rfl
      | some x =>
        obtain ⟨d, p⟩ := x
        exfalso
        rcases applyOps_compat_wheel_origin ops2 _ d p h2 with hc | ⟨h, hmem⟩
        · cases hc
        · obtain ⟨d2, p2, hsome⟩ := applyOps_compat_wheel_isSome ops1 _ d h p
            (hperm.mem_iff.mpr hmem)
          rw [h1] at hsome
          cases hsome
    | some x =>
      obtain ⟨d1, p1⟩ := x
      rcases applyOps_compat_wheel_origin ops1 _ d1 p1 h1 with hc | ⟨hh1, hm1⟩
      · cases hc
      · have hm2 : InsertOp.built d1 hh1 (.compatible p1) ∈ ops2 :=
          hperm.mem_iff.mp hm1
        obtain ⟨d2, p2, h2⟩ := applyOps_compat_wheel_isSome ops2 PrioritizedDist.default d1 hh1 p1 hm2
        rcases applyOps_compat_wheel_origin ops2 _ d2 p2 h2 with hc | ⟨hh2, hm2b⟩
        · simp [PrioritizedDist.default] at hc
        · have hle1 : p1 ≤ p2 :=
            applyOps_compat_wheel_ub ops2 _ d2 p2 h2 p1
              (mem_compatPriorities ops2 d1 hh1 p1 hm2)
          have hle2 : p2 ≤ p1 :=
            applyOps_compat_wheel_ub ops1 _ d1 p1 h1 p2
              (mem_compatPriorities ops1 d2 hh2 p2 (hperm.mem_iff.mpr hm2b))
          have hpp : p2 = p1 := Nat.le_antisymm hle2 hle1
          subst hpp
          have hd : d1 = d2 :=
            built_compat_unique ops2 hnd2 d1 hh1 p2 d2 hh2 hm2 hm2b
          rw [h2, hd]
  · cases hs1 : (applyOps PrioritizedDist.default ops1).compatible_source with
    | none =>
      cases hs2 : (applyOps PrioritizedDist.default ops2).compatible_source with
      | none => rfl
      | some s =>
        exfalso
        rcases applyOps_compat_source_origin ops2 _ s hs2 with hc | ⟨h, hmem⟩
        · cases hc
        · obtain ⟨s2, hsome⟩ := applyOps_compat_source_isSome ops1 _ s h
            (hperm.mem_iff.mpr hmem)
          rw [hs1] at hsome
          cases hsome
    | some s1 =>
      rcases applyOps_compat_source_origin ops1 _ s1 hs1 with hc | ⟨hh1, hm1⟩
      · cases hc
      · have hm2 : InsertOp.source s1 hh1 .compatible ∈ ops2 :=
          hperm.mem_iff.mp hm1
        obtain ⟨s2, hs2⟩ := applyOps_compat_source_isSome ops2 PrioritizedDist.default s1 hh1 hm2
        rcases applyOps_compat_source_origin ops2 _ s2 hs2 with hc | ⟨hh2, hm2b⟩
        · simp [PrioritizedDist.default] at hc
        · have heq : InsertOp.source s1 hh1 SourceDistCompatibility.compatible
              = InsertOp.source s2 hh2 SourceDistCompatibility.compatible :=
            filter_length_le_one_unique ops2 isCompatSource hcs2 _ _
              hm2 rfl hm2b rfl
          injection heq with hd hh hcc
          rw [hs2, ← hd]
  · cases hi1 : (applyOps PrioritizedDist.default ops1).incompatible_wheel with
    | none =>
      cases hi2 : (applyOps PrioritizedDist.default ops2).incompatible_wheel with
      | none => rfl
      | some y =>
        obtain ⟨d, r⟩ := y
        exfalso
        rcases applyOps_incompat_wheel_origin ops2 _ d r hi2 with hc | ⟨h, hmem⟩
        · cases hc
        · obtain ⟨y, hsome⟩ := applyOps_incompat_wheel_isSome ops1 _ d h r
            (hperm.mem_iff.mpr hmem)
          rw [hi1] at hsome
          cases hsome
    | some y1 =>
      obtain ⟨d1, r1⟩ := y1
      rcases applyOps_incompat_wheel_origin ops1 _ d1 r1 hi1 with hc | ⟨hh1, hm1⟩
      · cases hc
      · have hm2 : InsertOp.built d1 hh1 (.incompatible r1) ∈ ops2 :=
          hperm.mem_iff.mp hm1
        obtain ⟨y2, hi2⟩ := applyOps_incompat_wheel_isSome ops2 PrioritizedDist.default d1 hh1 r1 hm2
        obtain ⟨d2, r2⟩ := y2
        rcases applyOps_incompat_wheel_origin ops2 _ d2 r2 hi2 with hc | ⟨hh2, hm2b⟩
        · simp [PrioritizedDist.default] at hc
        · have heq : InsertOp.built d1 hh1 (WheelCompatibility.incompatible r1)
              = InsertOp.built d2 hh2 (WheelCompatibility.incompatible r2) :=
            filter_length_le_one_unique ops2 isIncompatBuilt hib2 _ _
              hm2 rfl hm2b rfl
          injection heq with hd hh hcc
          injection hcc with hr
          rw [hi2, ← hd, ← hr]

/-- Witness for claim C6, amended, on a swapped pair of compatible wheel
insertions with distinct priorities. -/
theorem C6_witness :
    (applyOps PrioritizedDist.default
        [InsertOp.built "A" none (.compatible 3),
         InsertOp.built "B" none (.compatible 5)]).get
      = (applyOps PrioritizedDist.default
        [InsertOp.built "B" none (.compatible 5),
         InsertOp.built "A" none (.compatible 3)]).get :=
  C6_amended_commutativity _ _ (List.Perm.swap _ _ _) (by decide) (by decide)
    (by decide)

end Uv
